import Mathlib

/-!
Verification of the combadge binding engine against its specification.

The development shallowly embeds the Python sources:
  * combadge/core/binder.py        (bind, bind_class, _wrap, _enumerate_methods,
                                    BaseBoundService, Signature.from_method)
  * combadge/support/httpx/backends/async_.py  (HttpxBackend.__call__, bind_method)
Machinery the sources import from modules that are not part of the
repository snapshot (parameter and response markers, the REST Request type,
build_request, the stdlib lru_cache and argument binding) is modelled from
the specification or from the documented stdlib semantics; each such
definition carries a doc comment saying so.
-/

namespace Combadge

/-! ## Binder memoization table (binder.py, bind_class / bind)

`bind_class` is decorated with `lru_cache(maxsize=100)`.  Keys are the
argument tuple (interface type, method binder function); both hash by
identity, which we model as numeric identities.  The synthesized class is
itself modelled by the numeric identity the constructor would allocate:
every raw execution of the `bind_class` body builds a fresh class, so two
executions never return the same object and referential equality of the
results can only come from the cache.
-/

/-- Cache key of `bind_class`: (interface type identity, method binder identity). -/
abbrev BindKey := Nat × Nat

/-- State of the memoizing cache plus the allocator of fresh class identities.
The cache list is kept most-recently-used first. -/
structure BindState where
  cache : List (BindKey × Nat)
  nextId : Nat
deriving DecidableEq

/-- Modelled from the stdlib: `functools.lru_cache` is created with
`maxsize=100` in binder.py. -/
def lruMaxsize : Nat := 100

/-- Find the cached class identity for a key, if present. -/
def lruFind (k : BindKey) : List (BindKey × Nat) → Option Nat
  | [] => none
  | (k2, v) :: rest => if k2 = k then some v else lruFind k rest

/-- Remove the (first) entry for a key from the cache list. -/
def lruErase (k : BindKey) : List (BindKey × Nat) → List (BindKey × Nat)
  | [] => []
  | (k2, v) :: rest => if k2 = k then rest else (k2, v) :: lruErase k rest

/-- Modelled from the stdlib semantics of `functools.lru_cache(maxsize=100)`
applied to the `bind_class` body: on a hit the cached class is returned and
its entry moves to the most-recently-used position; on a miss the body runs
(allocating a fresh class identity), the result is inserted most recently
used, and the least-recently-used entry is dropped once the capacity of
`lruMaxsize` entries is exceeded. -/
def bind_class (s : BindState) (k : BindKey) : Nat × BindState :=
  match lruFind k s.cache with
  | some v => (v, { s with cache := (k, v) :: lruErase k s.cache })
  | none =>
      (s.nextId,
        { cache := List.take lruMaxsize ((k, s.nextId) :: s.cache),
          nextId := s.nextId + 1 })

/-- A backend object: its own identity and the identity of its `binder`
function (`bind_method` of its class, so shared by backends of one class). -/
structure Backend where
  id : Nat
  binderId : Nat
deriving DecidableEq

/-- A bound service instance: the synthesized class it instantiates and the
single `backend` attribute stored by `BaseBoundService.__init__`. -/
structure BoundInstance where
  cls : Nat
  backend : Nat
deriving DecidableEq

/-- binder.py `bind`: `bind_class(from_protocol, to_backend.binder)(to_backend)`. -/
def bind (s : BindState) (iface : Nat) (b : Backend) : BoundInstance × BindState :=
  let r := bind_class s (iface, b.binderId)
  ({ cls := r.1, backend := b.id }, r.2)

theorem lruFind_erase_cons (k : BindKey) (v : Nat) (l : List (BindKey × Nat)) :
    lruFind k ((k, v) :: lruErase k l) = some v := by
  simp [lruFind]

theorem lruErase_length_of_find (k : BindKey) (l : List (BindKey × Nat))
    (v : Nat) (h : lruFind k l = some v) :
    (lruErase k l).length + 1 = l.length := by
  induction l with
  | nil => simp [lruFind] at h
  | cons hd tl ih =>
      by_cases hk : hd.1 = k
      · simp [lruErase, hk]
      · simp [lruFind, hk] at h
        simp [lruErase, hk, ih h]

theorem bind_class_second_hit (s : BindState) (k : BindKey) :
    (bind_class (bind_class s k).2 k).1 = (bind_class s k).1 := by
  unfold bind_class
  cases h : lruFind k s.cache with
  | some v => simp [lruFind_erase_cons]
  | none =>
      simp only [h]
      have : lruFind k (List.take lruMaxsize ((k, s.nextId) :: s.cache))
          = some s.nextId := by
        simp [lruMaxsize, List.take, lruFind]
      simp [this]

theorem bind_class_capacity (s : BindState) (k : BindKey)
    (hcap : s.cache.length ≤ lruMaxsize) :
    (bind_class s k).2.cache.length ≤ lruMaxsize := by
  unfold bind_class
  cases h : lruFind k s.cache with
  | some v =>
      simpa [lruErase_length_of_find k s.cache v h] using hcap
  | none =>
      simp [List.length_take_le lruMaxsize ((k, s.nextId) :: s.cache)]

/-- C1: `bind_class` is memoized by a bounded least-recently-used cache of
capacity 100 keyed on the identities of the interface and the method binder,
so a repeated `bind(I, B)` with the same backend yields the same,
referentially equal, implementation class, and the cache never exceeds its
capacity. -/
theorem bind_class_memoized_lru (s : BindState) (iface : Nat) (b : Backend)
    (hcap : s.cache.length ≤ lruMaxsize) :
    (bind (bind s iface b).2 iface b).1.cls = (bind s iface b).1.cls
    ∧ (bind s iface b).2.cache.length ≤ lruMaxsize := by
  constructor
  · simpa [bind] using bind_class_second_hit s (iface, b.binderId)
  · simpa [bind] using bind_class_capacity s (iface, b.binderId) hcap

theorem bind_class_memoized_lru_witness :
    (([] : List (BindKey × Nat)).length ≤ lruMaxsize)
    ∧ ((bind (bind ⟨[], 0⟩ 1 ⟨5, 7⟩).2 1 ⟨5, 7⟩).1.cls = (bind ⟨[], 0⟩ 1 ⟨5, 7⟩).1.cls
        ∧ (bind ⟨[], 0⟩ 1 ⟨5, 7⟩).2.cache.length ≤ lruMaxsize) :=
  ⟨by decide, bind_class_memoized_lru ⟨[], 0⟩ 1 ⟨5, 7⟩ (by decide)⟩

/-! ## Markers (combadge.core.markers and combadge.support.http.markers)

The marker modules are not part of the repository snapshot; only their
use sites in binder.py and the HTTPX backend are.  They are modelled from
the specification (section 4.1). -/

/-- A call-time argument value (string or integer suffice for the claims). -/
inductive Value where
  | vstr (s : String)
  | vint (n : Int)
deriving DecidableEq

/-- Modelled from the spec: a parameter marker names the request location
one argument is placed into (query parameter, header or form field, as the
HTTP support markers QueryParam, Header and FormField do). -/
inductive ParameterMarker where
  | queryParam (name : String)
  | header (name : String)
  | formField (name : String)
deriving DecidableEq

/-- A response marker, kept abstract for the claims below; identified by a
numeric tag. -/
structure ResponseMarker where
  tag : Nat
deriving DecidableEq

/-- A type-level annotation as `get_annotations` reflects it: the parameter
and response markers attached through Annotated, in declaration order. -/
structure Anno where
  paramMarks : List ParameterMarker
  respMarks : List ResponseMarker
deriving DecidableEq

/-- Modelled from the spec: `ParameterMarker.extract` scans an annotation
and returns every attached parameter marker, in order; empty when none. -/
def ParameterMarker.extract (a : Anno) : List ParameterMarker := a.paramMarks

/-- Modelled from the spec: `ResponseMarker.extract` scans an annotation
and returns every attached response marker, in order; empty when none. -/
def ResponseMarker.extract (a : Anno) : List ResponseMarker := a.respMarks

/-- A method marker as binder.py uses it: `wrap` maps a bound callable to
a new callable with extended behavior. -/
structure MethodMarker (C : Type) where
  wrap : C → C

/-! ## Signature extraction (binder.py, Signature.from_method) -/

/-- A structured record type (a pydantic model class): `fieldTable` is its
`__fields__` mapping of field name to field annotation, or `none` when the
class exposes no such attribute. -/
structure RecordType where
  fieldTable : Option (List (String × Anno))
deriving DecidableEq

/-- Modelled from the spec: the default successful empty result type used
when a method declares no return annotation (combadge.core.response
.SuccessfulResponse, not part of the snapshot): a record type whose field
table is empty. -/
def SuccessfulResponse : RecordType := { fieldTable := some [] }

/-- A formal parameter: name and optional default value. -/
structure Param where
  name : String
  default : Option Value
deriving DecidableEq

/-- One interface method as reflected at bind time.  `anns` is the
`get_annotations` mapping restricted to the parameters; the `return` key
is modelled separately by `ret` (the return entry holds a record class, to
which `ParameterMarker.extract` attaches nothing, so keeping it out of
`anns` loses no parameter marker). -/
structure Method (C : Type) where
  params : List Param
  anns : List (String × Anno)
  ret : Option RecordType
  methodMarkers : List (MethodMarker C)

/-- binder.py BoundParameterMarker: one parameter and one of its markers. -/
structure BoundParameterMarker where
  name : String
  marker : ParameterMarker
deriving DecidableEq

/-- binder.py BoundResponseMarkers: one response attribute and all of its
markers. -/
structure BoundResponseMarkers where
  name : String
  markers : List ResponseMarker
deriving DecidableEq

/-- binder.py Signature: extracted information about a service method.
`params` stands for the captured `bind_arguments = get_signature(m).bind`
closure, which is determined by the formal parameter list. -/
structure Signature (C : Type) where
  params : List Param
  method_markers : List (MethodMarker C)
  return_type : RecordType
  parameter_markers : List BoundParameterMarker
  response_markers : List BoundResponseMarkers

/-- binder.py Signature._extract_parameter_markers: for every annotation,
yield one bound marker per extracted marker (nested generator). -/
def _extract_parameter_markers : List (String × Anno) → List BoundParameterMarker
  | [] => []
  | (n, a) :: rest =>
      (ParameterMarker.extract a).map (fun m => ⟨n, m⟩) ++ _extract_parameter_markers rest

/-- binder.py Signature._extract_return_type:
`from_annotations.get("return", SuccessfulResponse)`. -/
def _extract_return_type (ret : Option RecordType) : RecordType :=
  ret.getD SuccessfulResponse

/-- binder.py Signature.from_method.  The response marker list comprehension
runs over `(getattr(return_type, "__fields__", None) or {})`: every field of
the field table, with `ResponseMarker.extract` applied to its annotation;
an absent table (like an empty one) contributes nothing. -/
def Signature.from_method {C : Type} (m : Method C) : Signature C :=
  let return_type := _extract_return_type m.ret
  { params := m.params
    method_markers := m.methodMarkers
    return_type := return_type
    parameter_markers := _extract_parameter_markers m.anns
    response_markers :=
      (return_type.fieldTable.getD []).map
        (fun f => { name := f.1, markers := ResponseMarker.extract f.2 }) }

/-- The response marker list as the specification words it: one entry per
declared result field that carries response markers, fields without markers
omitted. -/
def specResponseMarkersOmitting : List (String × Anno) → List BoundResponseMarkers
  | [] => []
  | (n, a) :: rest =>
      if a.respMarks = [] then specResponseMarkersOmitting rest
      else ⟨n, a.respMarks⟩ :: specResponseMarkersOmitting rest

/-- The response marker list as the amended claim words it: one entry for
every declared result field, each carrying its possibly empty ordered
marker list. -/
def specResponseMarkersAll : List (String × Anno) → List BoundResponseMarkers
  | [] => []
  | (n, a) :: rest => ⟨n, a.respMarks⟩ :: specResponseMarkersAll rest

/-- A method whose return type declares one field carrying no response
markers. -/
def methodWithMarkerlessField : Method Nat :=
  { params := [], anns := [], methodMarkers := [],
    ret := some { fieldTable := some [("status", { paramMarks := [], respMarks := [] })] } }

/-- C2 counterexample: for a return type with one markerless field, the
signature produced by `from_method` contains an entry for that field with
an empty marker list, so it differs from the spec list that omits
markerless fields. -/
theorem from_method_keeps_markerless_fields :
    (BoundResponseMarkers.mk "status" []
        ∈ (Signature.from_method methodWithMarkerlessField).response_markers)
    ∧ (Signature.from_method methodWithMarkerlessField).response_markers
        ≠ specResponseMarkersOmitting
            [("status", { paramMarks := [], respMarks := [] })] := by
  constructor
  · simp [Signature.from_method, methodWithMarkerlessField, _extract_return_type,
      ResponseMarker.extract]
  · decide

theorem specResponseMarkersAll_eq_map (l : List (String × Anno)) :
    specResponseMarkersAll l = l.map (fun f => ⟨f.1, f.2.respMarks⟩) := by
  induction l with
  | nil => rfl
  | cons hd tl ih => cases hd; simp [specResponseMarkersAll, ih]

/-- C2 (amended): `from_method` produces one response marker entry for every
declared result field, in declaration order, each carrying the ordered
(possibly empty) markers extracted from the field annotation. -/
theorem from_method_response_markers_per_field {C : Type} (m : Method C) :
    (Signature.from_method m).response_markers
      = specResponseMarkersAll ((_extract_return_type m.ret).fieldTable.getD []) := by
  simp [Signature.from_method, specResponseMarkersAll_eq_map, ResponseMarker.extract]

/-- C10: for a resolved return type that exposes no field table, signature
extraction still succeeds and the response marker list is empty. -/
theorem from_method_no_field_table {C : Type} (m : Method C)
    (h : (_extract_return_type m.ret).fieldTable = none) :
    (Signature.from_method m).response_markers = [] := by
  simp [Signature.from_method, h]

theorem from_method_no_field_table_witness :
    ((_extract_return_type (some { fieldTable := none })).fieldTable = none)
    ∧ (Signature.from_method
        ({ params := [], anns := [], ret := some { fieldTable := none },
           methodMarkers := [] } : Method Nat)).response_markers = [] :=
  ⟨by decide,
    from_method_no_field_table
      ({ params := [], anns := [], ret := some { fieldTable := none },
         methodMarkers := [] } : Method Nat) (by decide)⟩

/-! ## Method marker composition (binder.py, _wrap and bind_class) -/

/-- binder.py _wrap: repeatedly replace the method by `mark.wrap(method)`,
one marker at a time, in list order. -/
def _wrap {C : Type} (method : C) : List (MethodMarker C) → C
  | [] => method
  | mark :: rest => _wrap (mark.wrap method) rest

/-- The callable installed on the synthesized class for one method
(binder.py, loop body of bind_class): the binder result wrapped by the
method markers of the signature; `update_wrapper` only copies metadata. -/
def installedImplementation {C : Type} (method_binder : Signature C → C)
    (sig : Signature C) : C :=
  _wrap (method_binder sig) sig.method_markers

theorem _wrap_eq_foldl {C : Type} (marks : List (MethodMarker C)) (m : C) :
    _wrap m marks = marks.foldl (fun g mark => mark.wrap g) m := by
  induction marks generalizing m with
  | nil => rfl
  | cons hd tl ih => simp [_wrap, ih]

/-- C8: the installed implementation is the left fold of the method marker
wraps over the backend-bound callable, in declaration order; in particular
the last-declared marker ends up outermost. -/
theorem installed_implementation_is_left_fold {C : Type}
    (method_binder : Signature C → C) (sig : Signature C)
    (m : C) (marks : List (MethodMarker C)) (k : MethodMarker C) :
    installedImplementation method_binder sig
        = sig.method_markers.foldl (fun g mark => mark.wrap g) (method_binder sig)
    ∧ _wrap m (marks ++ [k]) = k.wrap (_wrap m marks) := by
  constructor
  · exact _wrap_eq_foldl sig.method_markers (method_binder sig)
  · simp [_wrap_eq_foldl]

/-! ## Method enumeration (binder.py, _enumerate_methods)

`_enumerate_methods` walks `inspect.getmembers(of_protocol, callable)`:
every attribute reachable through the class (inherited members included),
in alphabetical name order, resolved along the method resolution order;
then it skips names starting with an underscore and members whose
signature has no parameter named self. -/

/-- A class member as `inspect` reflects it: whether it is callable and the
parameter names of its signature (for a classmethod accessed on the class
the receiver parameter is already consumed and absent). -/
structure PyMember where
  isCallable : Bool
  paramNames : List String
deriving DecidableEq

/-- A Python class, reduced to what attribute lookup needs: its method
resolution order, the class itself first, each entry being the member table
declared directly by that class. -/
structure PyClass where
  mro : List (List (String × PyMember))
deriving DecidableEq

/-- Lookup of a name in one member table (first declaration wins). -/
def findMember (n : String) : List (String × PyMember) → Option PyMember
  | [] => none
  | (k, m) :: rest => if k = n then some m else findMember n rest

/-- Attribute resolution along a method resolution order: the first class
declaring the name provides the member. -/
def resolveIn (n : String) : List (List (String × PyMember)) → Option PyMember
  | [] => none
  | tbl :: rest =>
      match findMember n tbl with
      | some m => some m
      | none => resolveIn n rest

/-- `getattr` on the class. -/
def resolveAttr (c : PyClass) (n : String) : Option PyMember :=
  resolveIn n c.mro

/-- Lexicographic order on code point lists, for the alphabetical order of
`dir`. -/
def natListLe : List Nat → List Nat → Bool
  | [], _ => true
  | _ :: _, [] => false
  | x :: xs, y :: ys => if x < y then true else if y < x then false else natListLe xs ys

/-- Code point order on names. -/
def strLe (a b : String) : Bool :=
  natListLe (a.data.map Char.toNat) (b.data.map Char.toNat)

/-- Insertion step of the alphabetical sort. -/
def insertByName (x : String) : List String → List String
  | [] => [x]
  | y :: rest => if strLe x y then x :: y :: rest else y :: insertByName x rest

/-- Alphabetical sort of names, as `dir` returns them. -/
def sortNames (l : List String) : List String := l.foldr insertByName []

/-- `dir` on the class: every name declared anywhere along the method
resolution order, without duplicates, alphabetically sorted. -/
def classDir (c : PyClass) : List String :=
  sortNames ((c.mro.map (fun tbl => tbl.map Prod.fst)).flatten).dedup

/-- `inspect.getmembers(of_protocol, callable)`: for every name of `dir`,
the resolved attribute, kept when the callable predicate holds. -/
def get_members (c : PyClass) : List (String × PyMember) :=
  (classDir c).filterMap (fun n =>
    match resolveAttr c n with
    | some m => if m.isCallable then some (n, m) else none
    | none => none)

/-- Python `name.startswith("_")`, on the character list of the name. -/
def startsWithUnderscore (n : String) : Bool :=
  match n.data with
  | [] => false
  | c :: _ => c == '_'

/-- binder.py _enumerate_methods: the members of
`get_members(of_protocol, callable)` whose name does not start with an
underscore and whose parameters include self. -/
def _enumerate_methods (c : PyClass) : List (String × PyMember) :=
  (get_members c).filter
    (fun p => !startsWithUnderscore p.1 && p.2.paramNames.contains "self")

/-- The enumeration as the claim words it: only methods declared directly
on the interface itself (the head of the method resolution order), public,
callable, with a receiver parameter. -/
def specEnumerateDeclaredDirectly (c : PyClass) : List (String × PyMember) :=
  (sortNames ((c.mro.headD []).map Prod.fst).dedup).filterMap (fun n =>
    match findMember n (c.mro.headD []) with
    | some m =>
        if m.isCallable && (!startsWithUnderscore n) && m.paramNames.contains "self"
        then some (n, m) else none
    | none => none)

/-- An interface declaring nothing itself and inheriting one public
instance method from its base. -/
def protocolWithInheritedMethod : PyClass :=
  { mro := [[], [("fetch", { isCallable := true, paramNames := ["self"] })]] }

/-- C3 counterexample: a public instance method declared only on a base
class is enumerated (and hence installed), so the enumeration is not
restricted to methods declared directly on the interface. -/
theorem enumerate_methods_includes_inherited :
    _enumerate_methods protocolWithInheritedMethod
      = [("fetch", { isCallable := true, paramNames := ["self"] })]
    ∧ _enumerate_methods protocolWithInheritedMethod
      ≠ specEnumerateDeclaredDirectly protocolWithInheritedMethod := by
  constructor
  · decide
  · decide

theorem mem_insertByName (a x : String) (l : List String) :
    a ∈ insertByName x l ↔ a = x ∨ a ∈ l := by
  induction l with
  | nil => simp [insertByName]
  | cons y rest ih =>
      by_cases h : strLe x y = true
      · simp [insertByName, h]
      · simp only [insertByName, h]
        simp [ih]
        tauto

theorem mem_sortNames (a : String) (l : List String) :
    a ∈ sortNames l ↔ a ∈ l := by
  induction l with
  | nil => simp [sortNames]
  | cons x rest ih =>
      simp only [sortNames, List.foldr] at *
      rw [mem_insertByName]
      simp [ih]

theorem findMember_mem_of_some (n : String) (tbl : List (String × PyMember))
    (m : PyMember) (h : findMember n tbl = some m) : n ∈ tbl.map Prod.fst := by
  induction tbl with
  | nil => simp [findMember] at h
  | cons hd tl ih =>
      by_cases hk : hd.1 = n
      · simp [hk]
      · simp only [findMember, hk, if_false] at h
        simp [ih h]

theorem resolveIn_mem_of_some (n : String) (tables : List (List (String × PyMember)))
    (m : PyMember) (h : resolveIn n tables = some m) :
    n ∈ (tables.map (fun tbl => tbl.map Prod.fst)).flatten := by
  induction tables with
  | nil => simp [resolveIn] at h
  | cons tbl rest ih =>
      simp only [resolveIn] at h
      rw [List.map_cons, List.flatten_cons]
      cases hf : findMember n tbl with
      | some m2 =>
          exact List.mem_append.mpr (Or.inl (findMember_mem_of_some n tbl m2 hf))
      | none =>
          rw [hf] at h
          exact List.mem_append.mpr (Or.inr (ih h))

theorem mem_classDir (c : PyClass) (n : String) (m : PyMember)
    (h : resolveAttr c n = some m) : n ∈ classDir c := by
  unfold classDir
  rw [mem_sortNames, List.mem_dedup]
  exact resolveIn_mem_of_some n c.mro m h

/-- C3 (amended): a method is enumerated (and so installed) exactly when it
is the attribute the class resolves for its name anywhere along the method
resolution order (inherited members included), it is callable, its name
does not start with an underscore, and its parameters include self. -/
theorem enumerate_methods_mem_iff (c : PyClass) (n : String) (m : PyMember) :
    (n, m) ∈ _enumerate_methods c ↔
      (resolveAttr c n = some m ∧ m.isCallable = true
        ∧ startsWithUnderscore n = false ∧ "self" ∈ m.paramNames) := by
  unfold _enumerate_methods get_members
  rw [List.mem_filter]
  constructor
  · rintro ⟨hmem, hpred⟩
    rcases List.mem_filterMap.mp hmem with ⟨a, _, hfa⟩
    cases hra : resolveAttr c a with
    | none => simp [hra] at hfa
    | some m2 =>
        simp only [hra] at hfa
        by_cases hc : m2.isCallable = true
        · simp only [hc, if_true, Option.some.injEq, Prod.mk.injEq] at hfa
          obtain ⟨rfl, rfl⟩ := hfa
          simp only [Bool.and_eq_true, Bool.not_eq_true'] at hpred
          refine ⟨hra, hc, hpred.1, ?_⟩
          simpa using hpred.2
        · simp [hc] at hfa
  · rintro ⟨hra, hc, hu, hs⟩
    refine ⟨List.mem_filterMap.mpr ⟨n, mem_classDir c n m hra, ?_⟩, ?_⟩
    · simp [hra, hc]
    · simp [hu, hs]

/-! ## Argument binding (Signature.from_method captures
`get_signature(method).bind`) -/

/-- Pairing of positional arguments with formal parameters, in order. -/
def positionalBound (params : List Param) (args : List Value) :
    List (String × Value) :=
  (params.zip args).map (fun p => (p.1.name, p.2))

/-- Keyword assignment step of argument binding: an unknown keyword name or
a doubly supplied parameter is an error, otherwise the value is recorded. -/
def assignKwargs (params : List Param) (bound : List (String × Value)) :
    List (String × Value) → Except String (List (String × Value))
  | [] => .ok bound
  | (n, v) :: rest =>
      if params.any (fun p => p.name = n) = false then
        .error ("unexpected keyword argument " ++ n)
      else if bound.any (fun b => b.1 = n) then
        .error ("multiple values for argument " ++ n)
      else assignKwargs params (bound ++ [(n, v)]) rest

/-- Modelled from the stdlib semantics of `inspect.Signature.bind`, the
closure Signature.from_method stores as `bind_arguments`: too many
positional arguments, unknown keyword names, doubly supplied parameters and
unfilled required parameters are errors; defaults are not substituted yet. -/
def bind_arguments (params : List Param) (args : List Value)
    (kwargs : List (String × Value)) : Except String (List (String × Value)) :=
  if params.length < args.length then .error "too many positional arguments"
  else
    match assignKwargs params (positionalBound params args) kwargs with
    | .error e => .error e
    | .ok bound =>
        if params.all (fun p => p.default.isSome || bound.any (fun b => b.1 = p.name))
        then .ok bound
        else .error "missing a required argument"

/-- Modelled from the spec: an omitted argument with a declared literal
default is populated with that default before markers apply. -/
def applyDefaults (params : List Param) (bound : List (String × Value)) :
    List (String × Value) :=
  bound ++ params.filterMap (fun p =>
    if bound.any (fun b => b.1 = p.name) then none
    else p.default.map (fun v => (p.name, v)))

/-- Resolved value of a named parameter. -/
def lookupValue (n : String) : List (String × Value) → Option Value
  | [] => none
  | (k, v) :: rest => if k = n then some v else lookupValue n rest

/-! ## Request building and the async HTTPX backend
(combadge/support/httpx/backends/async_.py) -/

/-- Modelled from the spec: the REST request representation
(combadge.support.rest.request.Request, not part of the snapshot). The
method and path are fixed by method markers; the remaining slots are the
request locations the parameter markers accumulate into. -/
structure Request where
  method : String
  path : String
  headers : List (String × Value)
  query_params : List (String × Value)
  json_fields : List (String × Value)
deriving DecidableEq

/-- Modelled from the spec: a parameter marker places its resolved argument
value into the request location it names, accumulating with earlier values
of the same location instead of overwriting them. -/
def ParameterMarker.apply (mk : ParameterMarker) (v : Value) (r : Request) :
    Request :=
  match mk with
  | .queryParam n => { r with query_params := r.query_params ++ [(n, v)] }
  | .header n => { r with headers := r.headers ++ [(n, v)] }
  | .formField n => { r with json_fields := r.json_fields ++ [(n, v)] }

/-- The empty outgoing request a call starts from. -/
def emptyRequest : Request :=
  { method := "", path := "", headers := [], query_params := [], json_fields := [] }

/-- Modelled from the spec: combadge.core.request.build_request (not part
of the snapshot): bind the call arguments through the signature argument
binder, populate declared defaults, then apply every parameter marker of
the signature, in list order, to the resolved value of its parameter. -/
def build_request {C : Type} (sig : Signature C) (args : List Value)
    (kwargs : List (String × Value)) : Except String Request :=
  match bind_arguments sig.params args kwargs with
  | .error e => .error e
  | .ok bound =>
      let resolved := applyDefaults sig.params bound
      .ok (sig.parameter_markers.foldl
        (fun r bm =>
          match lookupValue bm.name resolved with
          | some v => bm.marker.apply v r
          | none => r) emptyRequest)

/-- What HttpxBackend.__call__ hands to the transport: exactly the four
arguments of `client.request(request.method, request.path,
json=request.json_dict(), params=request.query_params)`.  No headers
argument is passed, so the wire request carries no marker-set headers. -/
structure WireRequest where
  method : String
  url : String
  json : List (String × Value)
  params : List (String × Value)
  headers : List (String × Value)
deriving DecidableEq

/-- The projection of the built request onto the transport call arguments
performed by HttpxBackend.__call__. -/
def clientSend (r : Request) : WireRequest :=
  { method := r.method, url := r.path, json := r.json_fields,
    params := r.query_params, headers := [] }

/-- Outcome of the transport client call: a raw response with a status
code, or a connection-level failure. -/
inductive TransportOutcome where
  | ok (status : Nat) (raw : List (String × Value))
  | netError (msg : String)
deriving DecidableEq

/-- The transport-level errors HttpxBackend.__call__ can raise: a
connection error from the client, or the status error of
`raise_for_status`. -/
inductive CallError where
  | transport (msg : String)
  | status (code : Nat)
deriving DecidableEq

/-- httpx success test behind `raise_for_status`: the 2xx range. -/
def is_success (status : Nat) : Bool := 200 ≤ status && status < 300

/-- HttpxBackend.__call__: send the request, raise for a non-success
status, and only then parse the response (`_parse_response`, modelled by
the `decode` argument).  The boolean records whether decoding was
reached. -/
def backendCall (transport : WireRequest → TransportOutcome)
    (decode : List (String × Value) → List (String × Value))
    (r : Request) : Except CallError (List (String × Value)) × Bool :=
  match transport (clientSend r) with
  | .netError m => (.error (.transport m), false)
  | .ok status raw =>
      if is_success status then (.ok (decode raw), true)
      else (.error (.status status), false)

/-- Outcome of a bound method call. -/
inductive CallOutcome where
  | bindError (msg : String)
  | failure (e : CallError)
  | success (result : List (String × Value))
deriving DecidableEq

/-- HttpxBackend.bind_method result: build the request from the call
arguments (argument binding happens inside build_request), then call the
backend.  The second component counts transport invocations. -/
def bound_method {C : Type} (sig : Signature C)
    (transport : WireRequest → TransportOutcome)
    (decode : List (String × Value) → List (String × Value))
    (args : List Value) (kwargs : List (String × Value)) : CallOutcome × Nat :=
  match build_request sig args kwargs with
  | .error e => (.bindError e, 0)
  | .ok r =>
      match backendCall transport decode r with
      | (.error e, _) => (.failure e, 1)
      | (.ok d, _) => (.success d, 1)

/-! ## C4: header defaults against the async backend -/

/-- The get_headers method of the integration test (the callable third
parameter left out): `foo` marked as header x-foo, `bar` marked as header
x-bar with literal default "barval". -/
def getHeadersMethod : Method Nat :=
  { params := [⟨"self", none⟩, ⟨"foo", none⟩, ⟨"bar", some (Value.vstr "barval")⟩],
    anns := [("foo", { paramMarks := [.header "x-foo"], respMarks := [] }),
             ("bar", { paramMarks := [.header "x-bar"], respMarks := [] })],
    ret := none,
    methodMarkers := [] }

/-- C4, at the failing input of the claim: calling get_headers with only
`foo` supplied builds a request whose headers do carry the defaulted
x-bar header, but the async backend transport call passes no headers
argument, so the outgoing wire request carries none of them. -/
theorem async_backend_drops_default_header :
    build_request (Signature.from_method getHeadersMethod) [Value.vint 0]
        [("foo", Value.vstr "fooval")]
      = .ok { method := "", path := "",
              headers := [("x-foo", Value.vstr "fooval"),
                          ("x-bar", Value.vstr "barval")],
              query_params := [], json_fields := [] }
    ∧ (clientSend
        { method := "", path := "",
          headers := [("x-foo", Value.vstr "fooval"),
                      ("x-bar", Value.vstr "barval")],
          query_params := [], json_fields := [] }).headers = [] := by
  constructor
  · rfl
  · rfl

/-! ## C5: accumulation of a repeated request location -/

/-- The request location name a parameter marker targets. -/
def locationName : ParameterMarker → String
  | .queryParam n => n
  | .header n => n
  | .formField n => n

/-- The request section a parameter marker writes into. -/
def locationSlot (mk : ParameterMarker) (r : Request) : List (String × Value) :=
  match mk with
  | .queryParam _ => r.query_params
  | .header _ => r.headers
  | .formField _ => r.json_fields

/-- A method with two parameters whose markers target the same request
location (the shape of get_anything in the query parameter test, and
likewise of same-named header or form field pairs). -/
def twoMarkerMethod (mk : ParameterMarker) : Method Nat :=
  { params := [⟨"self", none⟩, ⟨"foo", none⟩, ⟨"bar", none⟩],
    anns := [("foo", { paramMarks := [mk], respMarks := [] }),
             ("bar", { paramMarks := [mk], respMarks := [] })],
    ret := none,
    methodMarkers := [] }

/-- The multi-valued slot a location name holds in a request section. -/
def valuesFor (n : String) (l : List (String × Value)) : List Value :=
  (l.filter (fun p => p.1 = n)).map Prod.snd

/-- C5: for every request location kind — query parameter, header or form
field — calling a method whose two parameters target the same location
name accumulates both values under that name in call order, the second
never overwriting the first; and the transport call passes the query
parameter pairs of the built request through unchanged, so the
accumulation is what the server observes in the cited test. -/
theorem same_location_accumulates_any_kind (mk : ParameterMarker) (v1 v2 : Value) :
    (∃ r, build_request (Signature.from_method (twoMarkerMethod mk)) [Value.vint 0]
        [("foo", v1), ("bar", v2)] = .ok r
      ∧ valuesFor (locationName mk) (locationSlot mk r) = [v1, v2])
    ∧ ∀ r, (clientSend r).params = r.query_params := by
  constructor
  · cases mk with
    | queryParam n =>
        refine ⟨{ method := "", path := "", headers := [],
                  query_params := [(n, v1), (n, v2)], json_fields := [] }, rfl, ?_⟩
        simp [valuesFor, locationSlot, locationName]
    | header n =>
        refine ⟨{ method := "", path := "",
                  headers := [(n, v1), (n, v2)], query_params := [],
                  json_fields := [] }, rfl, ?_⟩
        simp [valuesFor, locationSlot, locationName]
    | formField n =>
        refine ⟨{ method := "", path := "", headers := [], query_params := [],
                  json_fields := [(n, v1), (n, v2)] }, rfl, ?_⟩
        simp [valuesFor, locationSlot, locationName]
  · intro r
    rfl

/-! ## C6: transport failure aborts decoding -/

/-- C6: when the transport fails at the connection level or returns a
non-success status, the call fails with a transport-level error and
response decoding is never reached, so no result value is produced. -/
theorem transport_failure_aborts_decoding
    (transport : WireRequest → TransportOutcome)
    (decode : List (String × Value) → List (String × Value)) (r : Request)
    (h : ∀ status raw, transport (clientSend r) = .ok status raw →
      is_success status = false) :
    (∃ e, (backendCall transport decode r).1 = .error e)
    ∧ (backendCall transport decode r).2 = false := by
  cases ht : transport (clientSend r) with
  | netError m => exact ⟨⟨.transport m, by simp [backendCall, ht]⟩, by simp [backendCall, ht]⟩
  | ok status raw =>
      have hs := h status raw ht
      exact ⟨⟨.status status, by simp [backendCall, ht, hs]⟩, by simp [backendCall, ht, hs]⟩

theorem transport_failure_aborts_decoding_witness :
    (∃ e, (backendCall (fun _ => .ok 404 []) id emptyRequest).1 = .error e)
    ∧ (backendCall (fun _ => .ok 404 []) id emptyRequest).2 = false :=
  transport_failure_aborts_decoding (fun _ => .ok 404 []) id emptyRequest
    (by
      intro status raw hsr
      injection hsr with h1 h2
      subst h1
      decide)

/-! ## C7: a call that violates the argument contract never reaches the
transport -/

theorem assignKwargs_error_of_unknown (params : List Param)
    (bound : List (String × Value)) (kwargs : List (String × Value))
    (h : ∃ p ∈ kwargs, ∀ q ∈ params, q.name ≠ p.1) :
    ∃ e, assignKwargs params bound kwargs = .error e := by
  induction kwargs generalizing bound with
  | nil => simp at h
  | cons hd tl ih =>
      obtain ⟨p, hp, hq⟩ := h
      by_cases h1 : params.any (fun q => q.name = hd.1) = false
      · refine ⟨"unexpected keyword argument " ++ hd.1, ?_⟩
        obtain ⟨n, v⟩ := hd
        simp only [assignKwargs, h1, if_true]
      · by_cases h2 : bound.any (fun b => b.1 = hd.1) = true
        · refine ⟨"multiple values for argument " ++ hd.1, ?_⟩
          obtain ⟨n, v⟩ := hd
          simp only [assignKwargs, h1, if_false, h2, if_true]
          simp
        · rcases List.mem_cons.mp hp with rfl | hmem
          · exfalso
            apply h1
            simp only [List.any_eq_false]
            intro q hqmem
            simpa using hq q hqmem
          · obtain ⟨e, he⟩ := ih (bound ++ [hd]) ⟨p, hmem, hq⟩
            refine ⟨e, ?_⟩
            simp only [assignKwargs, h1, if_false, h2, if_true]
            obtain ⟨n, v⟩ := hd
            exact he

theorem bind_arguments_error_of_unknown (params : List Param)
    (args : List Value) (kwargs : List (String × Value))
    (h : ∃ p ∈ kwargs, ∀ q ∈ params, q.name ≠ p.1) :
    ∃ e, bind_arguments params args kwargs = .error e := by
  unfold bind_arguments
  by_cases hlen : params.length < args.length
  · exact ⟨"too many positional arguments", by simp [hlen]⟩
  · obtain ⟨e, he⟩ := assignKwargs_error_of_unknown params
      (positionalBound params args) kwargs h
    exact ⟨e, by simp [hlen, he]⟩

theorem assignKwargs_ok_append (params : List Param) (bound : List (String × Value))
    (kwargs : List (String × Value)) (res : List (String × Value))
    (h : assignKwargs params bound kwargs = .ok res) : res = bound ++ kwargs := by
  induction kwargs generalizing bound with
  | nil =>
      simp only [assignKwargs, Except.ok.injEq] at h
      simp [h]
  | cons hd tl ih =>
      obtain ⟨n, v⟩ := hd
      simp only [assignKwargs] at h
      by_cases h1 : params.any (fun p => p.name = n) = false
      · rw [if_pos h1] at h
        simp at h
      · rw [if_neg h1] at h
        by_cases h2 : bound.any (fun b => b.1 = n) = true
        · rw [if_pos h2] at h
          simp at h
        · rw [if_neg h2] at h
          simp [ih (bound ++ [(n, v)]) h]

theorem bind_arguments_error_of_missing (params : List Param)
    (args : List Value) (kwargs : List (String × Value)) (q : Param)
    (hq : q ∈ params) (hdq : q.default = none)
    (hpos : ∀ pb ∈ positionalBound params args, pb.1 ≠ q.name)
    (hkw : ∀ kv ∈ kwargs, kv.1 ≠ q.name) :
    ∃ e, bind_arguments params args kwargs = .error e := by
  unfold bind_arguments
  by_cases hlen : params.length < args.length
  · exact ⟨"too many positional arguments", by simp [hlen]⟩
  · cases hak : assignKwargs params (positionalBound params args) kwargs with
    | error e => exact ⟨e, by simp [hlen, hak]⟩
    | ok bound =>
        have hb := assignKwargs_ok_append params (positionalBound params args)
          kwargs bound hak
        have hfail : params.all
            (fun p => p.default.isSome || bound.any (fun b => b.1 = p.name)) = false := by
          rw [Bool.eq_false_iff]
          intro hall
          rw [List.all_eq_true] at hall
          have hbnd := hall q hq
          rw [hdq] at hbnd
          simp only [Option.isSome_none, Bool.false_or] at hbnd
          rw [hb] at hbnd
          obtain ⟨x, hxmem, hxq⟩ := List.any_eq_true.mp hbnd
          rcases List.mem_append.mp hxmem with hxp | hxk
          · exact hpos x hxp (by simpa using hxq)
          · exact hkw x hxk (by simpa using hxq)
        exact ⟨"missing a required argument", by simp [hlen, hak, hfail]⟩

/-- C7: a call whose arguments violate the formal parameter contract — an
unknown keyword argument, too many positional arguments, or an unfilled
required parameter — fails with an argument-binding error before the
request is built, and the backend transport receives zero invocations. -/
theorem argument_binding_error_no_transport {C : Type} (sig : Signature C)
    (transport : WireRequest → TransportOutcome)
    (decode : List (String × Value) → List (String × Value))
    (args : List Value) (kwargs : List (String × Value))
    (h : (∃ p ∈ kwargs, ∀ q ∈ sig.params, q.name ≠ p.1)
        ∨ sig.params.length < args.length
        ∨ (∃ q ∈ sig.params, q.default = none
            ∧ (∀ pb ∈ positionalBound sig.params args, pb.1 ≠ q.name)
            ∧ (∀ kv ∈ kwargs, kv.1 ≠ q.name))) :
    (∃ e, (bound_method sig transport decode args kwargs).1 = .bindError e)
    ∧ (bound_method sig transport decode args kwargs).2 = 0 := by
  have herr : ∃ e, bind_arguments sig.params args kwargs = .error e := by
    rcases h with h1 | h2 | ⟨q, hq, hdq, hpos, hkw⟩
    · exact bind_arguments_error_of_unknown sig.params args kwargs h1
    · refine ⟨"too many positional arguments", ?_⟩
      unfold bind_arguments
      simp [h2]
    · exact bind_arguments_error_of_missing sig.params args kwargs q hq hdq hpos hkw
  obtain ⟨e, he⟩ := herr
  unfold bound_method build_request
  rw [he]
  exact ⟨⟨e, rfl⟩, rfl⟩

theorem argument_binding_error_no_transport_witness :
    ((∃ e, (bound_method (Signature.from_method getHeadersMethod)
          (fun _ => .ok 200 []) id [Value.vint 0]
          [("nope", Value.vint 1)]).1 = .bindError e)
      ∧ (bound_method (Signature.from_method getHeadersMethod)
          (fun _ => .ok 200 []) id [Value.vint 0]
          [("nope", Value.vint 1)]).2 = 0)
    ∧ ((∃ e, (bound_method (Signature.from_method getHeadersMethod)
          (fun _ => .ok 200 []) id
          [Value.vint 0, Value.vint 1, Value.vint 2, Value.vint 3] []).1 = .bindError e)
      ∧ (bound_method (Signature.from_method getHeadersMethod)
          (fun _ => .ok 200 []) id
          [Value.vint 0, Value.vint 1, Value.vint 2, Value.vint 3] []).2 = 0)
    ∧ ((∃ e, (bound_method (Signature.from_method getHeadersMethod)
          (fun _ => .ok 200 []) id [Value.vint 0] []).1 = .bindError e)
      ∧ (bound_method (Signature.from_method getHeadersMethod)
          (fun _ => .ok 200 []) id [Value.vint 0] []).2 = 0) :=
  ⟨argument_binding_error_no_transport (Signature.from_method getHeadersMethod)
      (fun _ => .ok 200 []) id [Value.vint 0] [("nope", Value.vint 1)]
      (Or.inl (by decide)),
    argument_binding_error_no_transport (Signature.from_method getHeadersMethod)
      (fun _ => .ok 200 []) id
      [Value.vint 0, Value.vint 1, Value.vint 2, Value.vint 3] []
      (Or.inr (Or.inl (by decide))),
    argument_binding_error_no_transport (Signature.from_method getHeadersMethod)
      (fun _ => .ok 200 []) id [Value.vint 0] []
      (Or.inr (Or.inr (by decide)))⟩

/-! ## C9: instance state of a bound service (binder.py, BaseBoundService)

BaseBoundService declares `__slots__ = ("backend",)` and its `__init__`
stores the backend; the bind_class loop installs the generated callables
with `setattr` on the synthesized class object, never on instances. -/

/-- The instance attribute slots of BaseBoundService:
`__slots__ = ("backend",)`. -/
def serviceSlots : List String := ["backend"]

/-- The instance attribute dictionary produced by
`BaseBoundService.__init__(self, backend)`, the only instance attribute
write in the engine. -/
def initServiceAttrs (backend : Nat) : List (String × Nat) :=
  [("backend", backend)]

/-- Slot semantics of BaseBoundService: an attribute assignment outside the
declared slots raises AttributeError, an assignment to the backend slot
replaces it. -/
def setServiceAttr (_attrs : List (String × Nat)) (n : String) (v : Nat) :
    Except String (List (String × Nat)) :=
  if n ∈ serviceSlots then .ok [("backend", v)] else .error "AttributeError"

/-- The class attribute table of the synthesized class; the loop of
bind_class appends the generated callables here (`setattr(BoundService,
name, bound_method)`), leaving instance state untouched. -/
def installOnClass (clsAttrs : List (String × Nat)) (n : String) (m : Nat) :
    List (String × Nat) :=
  clsAttrs ++ [(n, m)]

/-- C9: a freshly constructed bound service instance holds exactly the one
backend attribute, set by the constructor, and slot semantics reject the
addition of any other instance attribute; the engine itself performs no
instance attribute write besides the constructor (method installation acts
on the class attribute table, `installOnClass`). -/
theorem bound_service_single_attribute (b : Nat) (n : String) (v : Nat)
    (hn : n ∉ serviceSlots) :
    initServiceAttrs b = [("backend", b)]
    ∧ (initServiceAttrs b).length = 1
    ∧ setServiceAttr (initServiceAttrs b) n v = .error "AttributeError" := by
  refine ⟨rfl, rfl, ?_⟩
  simp [setServiceAttr, hn]

theorem bound_service_single_attribute_witness :
    ("extra" ∉ serviceSlots)
    ∧ (initServiceAttrs 3 = [("backend", 3)]
        ∧ (initServiceAttrs 3).length = 1
        ∧ setServiceAttr (initServiceAttrs 3) "extra" 9 = .error "AttributeError") :=
  ⟨by decide, bound_service_single_attribute 3 "extra" 9 (by decide)⟩

end Combadge
